import Mathlib

/-!
# Pokeball Plus mouse driver — shallow embedding

Embedding of the packet-decoding and calibration core of the repository:

* `src/pokeball_mouse_working.py` — class `PokeballMouseWorking`: the X-axis
  nibble classifier `get_x_direction`, the steady-state
  `notification_handler` (frame decimation, Y-velocity computation, button
  edge handling), the in-session `calibrate_y_axis`, and the `run` loop's
  reconnect path.
* `src/tools/pokeball_calibrate.py` — class `PokeballCalibrator`: sample
  collection at byte offsets (2,3) and the median / drift / deadzone
  statistics of `calibrate`.

Machine bytes are modelled as `ℕ` (the transport constrains them to 0–255);
signed arithmetic (offsets, velocities) as `ℤ`; Python's float computation
`int(y_offset * 0.4)` as exact truncating integer division by 5 of twice
the offset, which agrees bit-for-bit with IEEE-754 double evaluation on
every offset in the byte range (−300 … 300 checked exhaustively).
-/

namespace Pokeball

/-- X direction labels printed/used by `get_x_direction`. -/
inductive Direction
  | LEFT
  | CENTER
  | RIGHT
deriving DecidableEq, Repr

/-- Buttons mapped by the handler: bit 0 (`0x01`, top button) is the primary
(left) click, bit 1 (`0x02`, stick button) the secondary (right) click. -/
inductive Button
  | PRIMARY
  | SECONDARY
deriving DecidableEq, Repr

/-- `self.x_speed = 20` — fixed speed for the digital X-axis. -/
def x_speed : ℤ := 20

/-- `self.y_sensitivity = 0.4`, modelled exactly as the rational 2/5. -/
def y_sensitivity : ℚ := 2 / 5

/-- Python `int()` applied to a real number: truncation toward zero. -/
def intTrunc (q : ℚ) : ℤ := if 0 ≤ q then ⌊q⌋ else ⌈q⌉

/-- `PokeballMouseWorking.get_x_direction`: classify the low nibble of
byte 3 into a direction and a fixed signed magnitude.  Mirrors the Python
branch structure, including the `nibble < 2` edge-case fallback. -/
def get_x_direction (nibble_value : ℕ) : Direction × ℤ :=
  if nibble_value = 2 ∨ nibble_value = 3 then
    (Direction.LEFT, -x_speed)
  else if 4 ≤ nibble_value ∧ nibble_value < 8 then
    (Direction.CENTER, 0)
  else if 8 ≤ nibble_value then
    (Direction.RIGHT, x_speed)
  else if nibble_value < 2 then
    (Direction.LEFT, -x_speed)
  else
    (Direction.CENTER, 0)

/-- The Y-movement computation of `notification_handler`:
`y_offset = y_raw - self.y_center`; offsets inside the deadzone are zeroed
(strict `<` comparison via `abs`); then `y_move = int(y_offset * 0.4)`.
Python's `int()` on a float truncates toward zero, and on every offset in
the byte range the IEEE-754 evaluation of `y_offset * 0.4` truncates to the
same integer as the exact product `y_offset * 2/5`, so the cast is modelled
exactly as the truncating integer division `(2 * y_offset).tdiv 5`. -/
def computeYMove (y_raw y_center y_deadzone : ℤ) : ℤ :=
  let y_offset := y_raw - y_center
  let y_offset := if |y_offset| < y_deadzone then 0 else y_offset
  Int.tdiv (2 * y_offset) 5

/-- A click event: a `device.write(EV_KEY, BTN_*, v)` emitted by the handler,
with `pressed = (v = 1)`. -/
structure ClickEvent where
  button : Button
  pressed : Bool
deriving DecidableEq, Repr

/-- A relative motion event: the `EV_REL` writes of one processed packet,
grouped by the trailing `syn()` (a zero component means that axis was not
written). -/
structure MotionEvent where
  dx : ℤ
  dy : ℤ
deriving DecidableEq, Repr

/-- What one call of `notification_handler` emits to the virtual device. -/
structure HandlerOutput where
  motion : Option MotionEvent
  clicks : List ClickEvent
deriving DecidableEq, Repr

/-- The empty output: a call that wrote nothing to the virtual device. -/
def emptyOutput : HandlerOutput := ⟨none, []⟩

/-- The mutable fields of `PokeballMouseWorking` that the decoding core
reads or writes (`self.counter`, `self.last_button_state`, `self.y_center`,
`self.y_deadzone`).  The fixed speeds are module constants above. -/
structure DriverState where
  counter : ℕ
  last_button_state : ℕ
  y_center : ℤ
  y_deadzone : ℤ
deriving DecidableEq, Repr

/-- `__init__`: `counter = 0`, `last_button_state = 0`, `y_center = 118`,
`y_deadzone = 15`. -/
def initState : DriverState :=
  { counter := 0, last_button_state := 0, y_center := 118, y_deadzone := 15 }

/-- The button block of `notification_handler`: when `buttons` differs from
`last_button_state`, the handler writes BOTH buttons' current values — a
press (`1`) or release (`0`) write for `BTN_LEFT` keyed on bit `0x01` and
one for `BTN_RIGHT` keyed on bit `0x02` — regardless of which bit changed;
when the mask is unchanged it writes nothing. -/
def buttonEvents (last_button_state buttons : ℕ) : List ClickEvent :=
  if buttons ≠ last_button_state then
    [⟨Button.PRIMARY, buttons &&& 1 ≠ 0⟩, ⟨Button.SECONDARY, buttons &&& 2 ≠ 0⟩]
  else []

/-- Feed a sequence of button masks through the edge-detection block,
starting from a given stored mask; returns the per-mask event groups.  The
stored mask is updated exactly as in the source: only inside the
`buttons != last_button_state` branch. -/
def buttonRun (last_button_state : ℕ) : List ℕ → List (List ClickEvent)
  | [] => []
  | m :: ms =>
      buttonEvents last_button_state m ::
        buttonRun (if m ≠ last_button_state then m else last_button_state) ms

/-- The decode branch of `notification_handler` (reached only on a processed
frame): length guard, byte extraction (`buttons = data[1]`,
`x_nibble = data[3] & 0x0F`, `y_raw = data[4]`), motion computation and
emission, button edge handling, and the `last_button_state` update. -/
def decodePacket (s : DriverState) (data : List ℕ) : DriverState × HandlerOutput :=
  if 5 ≤ data.length then
    let buttons := data.getD 1 0
    let x_nibble := data.getD 3 0 &&& 15
    let x_move := (get_x_direction x_nibble).2
    let y_raw := (data.getD 4 0 : ℤ)
    let y_move := computeYMove y_raw s.y_center s.y_deadzone
    let motion := if x_move ≠ 0 ∨ y_move ≠ 0 then some ⟨x_move, y_move⟩ else none
    let clicks := buttonEvents s.last_button_state buttons
    let s₁ := if buttons ≠ s.last_button_state then
                { s with last_button_state := buttons } else s
    (s₁, ⟨motion, clicks⟩)
  else
    (s, emptyOutput)

/-- `PokeballMouseWorking.notification_handler`: increment `self.counter`,
return early (processing every 3rd packet) unless the incremented counter is
divisible by 3, otherwise decode the packet. -/
def notification_handler (s : DriverState) (data : List ℕ) :
    DriverState × HandlerOutput :=
  let s₀ := { s with counter := s.counter + 1 }
  if s₀.counter % 3 ≠ 0 then (s₀, emptyOutput)
  else decodePacket s₀ data

/-- Deliver a list of packets to the handler in arrival order, collecting
the per-packet outputs. -/
def runHandler (s : DriverState) : List (List ℕ) → DriverState × List HandlerOutput
  | [] => (s, [])
  | p :: ps =>
      ((runHandler (notification_handler s p).1 ps).1,
       (notification_handler s p).2 :: (runHandler (notification_handler s p).1 ps).2)

/-- The per-packet outputs of a run. -/
def runOutputs (s : DriverState) (packets : List (List ℕ)) : List HandlerOutput :=
  (runHandler s packets).2

/-- The reconnect path of `PokeballMouseWorking.run`: when
`self.client.is_connected` turns false the loop only re-invokes
`self.connect()`, which builds a fresh transport client and re-registers
`notification_handler`; none of `counter`, `last_button_state`, `y_center`,
`y_deadzone` is touched, so on the decoder state the reconnect is the
identity. -/
def reconnect (s : DriverState) : DriverState := s

/-- The sample-collection callback `cal_handler` of `calibrate_y_axis`: for
every packet of length ≥ 5 it appends `data[4]` to `y_samples` (and
`data[3] & 0x0F` to `x_samples`); shorter packets contribute nothing.
Returns `(y_samples, x_samples)`. -/
def cal_collect : List (List ℕ) → List ℕ × List ℕ
  | [] => ([], [])
  | p :: ps =>
      if 5 ≤ p.length then
        (p.getD 4 0 :: (cal_collect ps).1, (p.getD 3 0 &&& 15) :: (cal_collect ps).2)
      else cal_collect ps

/-- The Y-center update of `PokeballMouseWorking.calibrate_y_axis`:
`if y_samples: self.y_center = sum(y_samples) // len(y_samples)` — the
integer (floor) mean of the collected samples; with an empty sample list
the branch is skipped and the previous center is kept. -/
def calibrate_y_axis (y_center : ℤ) (y_samples : List ℕ) : ℤ :=
  if y_samples ≠ [] then ((y_samples.sum / y_samples.length : ℕ) : ℤ)
  else y_center

/-! ## The standalone calibration tool (`src/tools/pokeball_calibrate.py`) -/

/-- `PokeballCalibrator.max_samples = 500`. -/
def max_samples : ℕ := 500

/-- `PokeballCalibrator.notification_handler`: while fewer than
`max_samples` samples have been taken, every packet of length ≥ 4
contributes `x = data[2]` and `y = data[3]`; shorter packets (and packets
after the budget is exhausted) contribute nothing.  Returns
`(x_values, y_values)`. -/
def calibrator_collect : ℕ → List (List ℕ) → List ℕ × List ℕ
  | _, [] => ([], [])
  | budget, p :: ps =>
      if 4 ≤ p.length ∧ 0 < budget then
        (p.getD 2 0 :: (calibrator_collect (budget - 1) ps).1,
         p.getD 3 0 :: (calibrator_collect (budget - 1) ps).2)
      else calibrator_collect budget ps

/-- Insert into an ascending list, keeping it ascending. -/
def insertSorted (a : ℕ) : List ℕ → List ℕ
  | [] => [a]
  | b :: bs => if a ≤ b then a :: b :: bs else b :: insertSorted a bs

/-- Ascending sort (extensionally the ordering `statistics.median` uses on
its `sorted(data)` copy; on `ℕ` any stable ascending sort is the same
list). -/
def sortAsc (l : List ℕ) : List ℕ := l.foldr insertSorted []

/-- `int(statistics.median(values))`: sort ascending; with odd length take
the middle element; with even length average the two middle elements (for
byte values the float average is exact up to the `.5`, and `int()`
truncation of the nonnegative result is floor, i.e. `(a + b) / 2` in `ℕ`). -/
def medianInt (l : List ℕ) : ℕ :=
  let s := sortAsc l
  let n := s.length
  if n % 2 = 1 then s.getD (n / 2) 0
  else (s.getD (n / 2 - 1) 0 + s.getD (n / 2) 0) / 2

/-- Python `max(values)` on a non-empty list: fold `max` seeded with the
head (the `[]` case is never reached by the tool, which only calls it on a
full sample window). -/
def listMax : List ℕ → ℕ
  | [] => 0
  | x :: xs => xs.foldl max x

/-- Python `min(values)` on a non-empty list, analogously. -/
def listMin : List ℕ → ℕ
  | [] => 0
  | x :: xs => xs.foldl min x

/-- The statistics block of `PokeballCalibrator.calibrate`: medians as
centers, per-axis drift `max − min`, and
`recommended_deadzone = max(x_drift, y_drift) + 5`. -/
structure CalibrationResult where
  center_x : ℕ
  center_y : ℕ
  deadzone : ℕ
deriving DecidableEq, Repr

/-- `PokeballCalibrator.calibrate` on the collected window. -/
def calibrate_tool (x_values y_values : List ℕ) : CalibrationResult :=
  let x_median := medianInt x_values
  let y_median := medianInt y_values
  let x_drift := listMax x_values - listMin x_values
  let y_drift := listMax y_values - listMin y_values
  { center_x := x_median
    center_y := y_median
    deadzone := max x_drift y_drift + 5 }

/-- A well-formed steady-state packet used in concrete runs: buttons
released, X nibble 4 (CENTER), Y byte 200 (far above center). -/
def goodPacket : List ℕ := [0, 0, 0, 4, 200]

/-- A packet with the top button (bit `0x01`) held: X centered, Y at the
default center. -/
def pressPacket : List ℕ := [0, 1, 0, 4, 118]

/-- A packet with both buttons released, joystick at rest. -/
def idlePacket : List ℕ := [0, 0, 0, 4, 118]

/-!
## Sanity checks and helper lemmas
-/

example : computeYMove 90 118 15 = -11 := by decide
example : computeYMove 130 118 15 = 0 := by decide
example : computeYMove 140 118 15 = 8 := by decide
example : calibrate_y_axis 118 [100, 100, 104] = 101 := by decide
example : calibrate_y_axis 118 [] = 118 := by decide
example : medianInt [100, 102, 98, 104, 96] = 100 := by decide
example : medianInt [100, 100, 104] = 100 := by decide
example : (calibrate_tool [7, 7, 7] [100, 102, 98, 104, 96]).deadzone = 13 := by decide

/-- The truncating division of `computeYMove` is exactly truncation toward
zero of the rational product `z * (2/5)` — the spec's
`int(offset * sensitivity)` with sensitivity `0.4`. -/
lemma tdiv_eq_intTrunc_mul_sensitivity (z : ℤ) :
    Int.tdiv (2 * z) 5 = intTrunc ((z : ℚ) * y_sensitivity) := by
  have hq : (z : ℚ) * y_sensitivity = ((2 * z : ℤ) : ℚ) / ((5 : ℕ) : ℚ) := by
    unfold y_sensitivity
    push_cast
    ring
  rcases le_or_lt 0 z with hz | hz
  · have h2z : (0 : ℤ) ≤ 2 * z := by omega
    have hq0 : (0 : ℚ) ≤ (z : ℚ) * y_sensitivity := by
      have : (0 : ℚ) ≤ (z : ℚ) := by exact_mod_cast hz
      have h45 : (0 : ℚ) ≤ y_sensitivity := by unfold y_sensitivity; norm_num
      exact mul_nonneg this h45
    rw [intTrunc, if_pos hq0, hq, Rat.floor_intCast_div_natCast]
    exact Int.tdiv_eq_ediv h2z (by omega)
  · have hq0 : ¬ (0 : ℚ) ≤ (z : ℚ) * y_sensitivity := by
      have hzq : (z : ℚ) < 0 := by exact_mod_cast hz
      have h45 : (0 : ℚ) < y_sensitivity := by unfold y_sensitivity; norm_num
      push_neg
      exact mul_neg_of_neg_of_pos hzq h45
    rw [intTrunc, if_neg hq0]
    have hneg : (z : ℚ) * y_sensitivity = -(((2 * -z : ℤ) : ℚ) / ((5 : ℕ) : ℚ)) := by
      rw [hq]
      push_cast
      ring
    rw [hneg, Int.ceil_neg, Rat.floor_intCast_div_natCast]
    have h1 : 2 * z = -(2 * -z) := by ring
    rw [h1, Int.neg_tdiv, Int.tdiv_eq_ediv (by omega) (by omega)]
    norm_cast

example : ⌊((90 - 118 : ℤ) : ℚ) * y_sensitivity⌋ = -12 := by
  unfold y_sensitivity
  norm_num

/-! ### Facts about the head-seeded fold versions of `max`/`min` -/

lemma le_foldl_max (xs : List ℕ) (a : ℕ) : a ≤ xs.foldl max a := by
  induction xs generalizing a with
  | nil => simp
  | cons x xs ih => exact le_trans (le_max_left a x) (ih (max a x))

lemma mem_le_foldl_max (xs : List ℕ) (a b : ℕ) (hb : b ∈ xs) :
    b ≤ xs.foldl max a := by
  induction xs generalizing a with
  | nil => cases hb
  | cons x xs ih =>
      rcases List.mem_cons.mp hb with h | h
      · subst h
        exact le_trans (le_max_right a b) (le_foldl_max xs _)
      · exact ih _ h

lemma foldl_max_mem (xs : List ℕ) (a : ℕ) : xs.foldl max a ∈ a :: xs := by
  induction xs generalizing a with
  | nil => simp
  | cons x xs ih =>
      have h := ih (max a x)
      rcases List.mem_cons.mp h with h1 | h1
      · rw [List.foldl_cons, h1]
        rcases max_choice a x with hm | hm <;> rw [hm] <;> simp
      · exact List.mem_cons.mpr (Or.inr (List.mem_cons.mpr (Or.inr h1)))

lemma foldl_min_le (xs : List ℕ) (a : ℕ) : xs.foldl min a ≤ a := by
  induction xs generalizing a with
  | nil => simp
  | cons x xs ih => exact le_trans (ih (min a x)) (min_le_left a x)

lemma foldl_min_le_mem (xs : List ℕ) (a b : ℕ) (hb : b ∈ xs) :
    xs.foldl min a ≤ b := by
  induction xs generalizing a with
  | nil => cases hb
  | cons x xs ih =>
      rcases List.mem_cons.mp hb with h | h
      · subst h
        exact le_trans (foldl_min_le xs _) (min_le_right a b)
      · exact ih _ h

lemma foldl_min_mem (xs : List ℕ) (a : ℕ) : xs.foldl min a ∈ a :: xs := by
  induction xs generalizing a with
  | nil => simp
  | cons x xs ih =>
      have h := ih (min a x)
      rcases List.mem_cons.mp h with h1 | h1
      · rw [List.foldl_cons, h1]
        rcases min_choice a x with hm | hm <;> rw [hm] <;> simp
      · exact List.mem_cons.mpr (Or.inr (List.mem_cons.mpr (Or.inr h1)))

lemma listMax_mem (l : List ℕ) (h : l ≠ []) : listMax l ∈ l := by
  cases l with
  | nil => exact absurd rfl h
  | cons x xs => exact foldl_max_mem xs x

lemma le_listMax (l : List ℕ) (b : ℕ) (hb : b ∈ l) : b ≤ listMax l := by
  cases l with
  | nil => cases hb
  | cons x xs =>
      rcases List.mem_cons.mp hb with h | h
      · subst h
        exact le_foldl_max xs b
      · exact mem_le_foldl_max xs x b h

lemma listMin_mem (l : List ℕ) (h : l ≠ []) : listMin l ∈ l := by
  cases l with
  | nil => exact absurd rfl h
  | cons x xs => exact foldl_min_mem xs x

lemma listMin_le (l : List ℕ) (b : ℕ) (hb : b ∈ l) : listMin l ≤ b := by
  cases l with
  | nil => cases hb
  | cons x xs =>
      rcases List.mem_cons.mp hb with h | h
      · subst h
        exact foldl_min_le xs b
      · exact foldl_min_le_mem xs x b h

/-! ### Evolution of the handler state over a packet stream -/

lemma decodePacket_counter (s : DriverState) (data : List ℕ) :
    (decodePacket s data).1.counter = s.counter := by
  unfold decodePacket
  split
  · dsimp only
    split <;> rfl
  · rfl

lemma notification_handler_counter (s : DriverState) (data : List ℕ) :
    (notification_handler s data).1.counter = s.counter + 1 := by
  unfold notification_handler
  dsimp only
  split
  · rfl
  · exact decodePacket_counter _ _

lemma runHandler_counter (s : DriverState) (ps : List (List ℕ)) :
    (runHandler s ps).1.counter = s.counter + ps.length := by
  induction ps generalizing s with
  | nil => rfl
  | cons p ps ih =>
      show (runHandler (notification_handler s p).1 ps).1.counter = _
      rw [ih, notification_handler_counter]
      simp [List.length_cons]
      omega

lemma runOutputs_getD (s : DriverState) (ps : List (List ℕ)) (i : ℕ)
    (hi : i < ps.length) :
    (runOutputs s ps).getD i emptyOutput
      = (notification_handler (runHandler s (ps.take i)).1 (ps.getD i [])).2 := by
  induction ps generalizing s i with
  | nil => cases hi
  | cons p ps ih =>
      cases i with
      | zero => rfl
      | succ n =>
          have hn : n < ps.length := by
            simpa [List.length_cons] using Nat.lt_of_succ_lt_succ hi
          show ((notification_handler s p).2 ::
                  (runHandler (notification_handler s p).1 ps).2).getD (n + 1)
                  emptyOutput = _
          rw [List.getD_cons_succ]
          exact ih _ n hn

/-!
## Claims
-/

/-- C4: `get_x_direction` is total on the nibble domain 0..15 — it returns
one of LEFT/CENTER/RIGHT for every nibble — and maps nibbles 2,3 to LEFT
with magnitude `-x_speed`, nibbles 4..7 to CENTER with magnitude 0,
nibbles 8..15 to RIGHT with magnitude `x_speed`, and the edge-case nibbles
0,1 to LEFT with magnitude `-x_speed`. -/
theorem C4_classifyX_total (n : ℕ) (h : n ≤ 15) :
    ((get_x_direction n).1 = Direction.LEFT ∨ (get_x_direction n).1 = Direction.CENTER ∨
      (get_x_direction n).1 = Direction.RIGHT)
    ∧ (n = 2 ∨ n = 3 → get_x_direction n = (Direction.LEFT, -x_speed))
    ∧ (4 ≤ n ∧ n ≤ 7 → get_x_direction n = (Direction.CENTER, 0))
    ∧ (8 ≤ n → get_x_direction n = (Direction.RIGHT, x_speed))
    ∧ (n ≤ 1 → get_x_direction n = (Direction.LEFT, -x_speed)) := by
  interval_cases n <;> decide

theorem C4_classifyX_total_witness :
    get_x_direction 2 = (Direction.LEFT, -x_speed)
    ∧ get_x_direction 5 = (Direction.CENTER, 0)
    ∧ get_x_direction 9 = (Direction.RIGHT, x_speed)
    ∧ get_x_direction 0 = (Direction.LEFT, -x_speed) :=
  ⟨(C4_classifyX_total 2 (by decide)).2.1 (Or.inl rfl),
   (C4_classifyX_total 5 (by decide)).2.2.1 (by decide),
   (C4_classifyX_total 9 (by decide)).2.2.2.1 (by decide),
   (C4_classifyX_total 0 (by decide)).2.2.2.2 (by decide)⟩

/-- C5: the Y-velocity is 0 whenever `|y_raw − y_center| < y_deadzone`
(strict comparison), and otherwise equals the offset times the sensitivity
2/5 truncated toward zero (`intTrunc`), not floored; in particular with
center 118, deadzone 15, `y_raw = 90` the velocity is −11, while the floor
of the same product is −12. -/
theorem C5_y_velocity_truncates_toward_zero (y_raw y_center y_deadzone : ℤ) :
    (|y_raw - y_center| < y_deadzone → computeYMove y_raw y_center y_deadzone = 0)
    ∧ (y_deadzone ≤ |y_raw - y_center| →
        computeYMove y_raw y_center y_deadzone
          = intTrunc (((y_raw - y_center : ℤ) : ℚ) * y_sensitivity))
    ∧ computeYMove 90 118 15 = -11
    ∧ ⌊((90 - 118 : ℤ) : ℚ) * y_sensitivity⌋ = -12 := by
  refine ⟨?_, ?_, by decide, by unfold y_sensitivity; norm_num⟩
  · intro h
    unfold computeYMove
    dsimp only
    rw [if_pos h]
    decide
  · intro h
    unfold computeYMove
    dsimp only
    rw [if_neg (not_lt.mpr h)]
    exact tdiv_eq_intTrunc_mul_sensitivity _

theorem C5_y_velocity_truncates_toward_zero_witness :
    computeYMove 130 118 15 = 0 ∧ computeYMove 90 118 15 = -11 :=
  ⟨(C5_y_velocity_truncates_toward_zero 130 118 15).1 (by decide),
   (C5_y_velocity_truncates_toward_zero 90 118 15).2.2.1⟩

/-- C7: a packet shorter than 5 bytes produces no motion or click event and
only advances the frame counter; the handler is a total function, so no
error is raised or surfaced. -/
theorem C7_short_packet_silently_ignored (s : DriverState) (data : List ℕ)
    (h : data.length < 5) :
    (notification_handler s data).2 = emptyOutput
    ∧ (notification_handler s data).1 = { s with counter := s.counter + 1 } := by
  unfold notification_handler
  dsimp only
  split
  · exact ⟨rfl, rfl⟩
  · unfold decodePacket
    rw [if_neg (by omega)]
    exact ⟨rfl, rfl⟩

theorem C7_short_packet_silently_ignored_witness :
    (notification_handler initState [0, 0, 0]).2 = emptyOutput
    ∧ (notification_handler initState [0, 0, 0]).1
        = { initState with counter := initState.counter + 1 } :=
  C7_short_packet_silently_ignored initState [0, 0, 0] (by decide)

/-- C9: every delivered packet — including one shorter than 5 bytes —
increments the decimation counter by exactly one; consequently a short
packet consumes a decimation slot: prepending the 1-byte packet `[0]` to a
stream makes the well-formed packet in overall position 3 processed
(non-empty output), whereas without the short packet the same well-formed
packet, then in position 2, is skipped. -/
theorem C9_short_packets_consume_decimation_slots (s : DriverState)
    (data : List ℕ) :
    (notification_handler s data).1.counter = s.counter + 1
    ∧ (runOutputs initState [[0], goodPacket, goodPacket]).getD 2 emptyOutput
        ≠ emptyOutput
    ∧ (runOutputs initState [goodPacket, goodPacket]).getD 1 emptyOutput
        = emptyOutput :=
  ⟨notification_handler_counter s data, by decide, by decide⟩

/-- C10: when the in-session calibration window collects no samples (every
packet is shorter than 5 bytes), `calibrate_y_axis` does not fail (it is a
total function) and keeps the previous Y-center unchanged. -/
theorem C10_empty_window_keeps_center (c : ℤ) (packets : List (List ℕ))
    (h : ∀ p ∈ packets, p.length < 5) :
    (cal_collect packets).1 = []
    ∧ calibrate_y_axis c (cal_collect packets).1 = c := by
  have h1 : (cal_collect packets).1 = [] := by
    induction packets with
    | nil => rfl
    | cons p ps ih =>
        have hp : ¬ 5 ≤ p.length := by
          have := h p (List.mem_cons_self p ps)
          omega
        show (cal_collect (p :: ps)).1 = []
        unfold cal_collect
        rw [if_neg hp]
        exact ih fun q hq => h q (List.mem_cons.mpr (Or.inr hq))
  refine ⟨h1, ?_⟩
  rw [h1]
  simp [calibrate_y_axis]

theorem C10_empty_window_keeps_center_witness :
    (cal_collect [[0], [1, 2]]).1 = []
    ∧ calibrate_y_axis 118 (cal_collect [[0], [1, 2]]).1 = 118 :=
  C10_empty_window_keeps_center 118 [[0], [1, 2]] (by decide)

/-- C1 fails as stated: on the window with y values `[100, 100, 104]` the
driver's in-session calibration (`calibrate_y_axis`, one of the two cited
calibration procedures) sets the Y-center to the integer mean 101, not to
the integer median 100. -/
theorem C1_counterexample_driver_uses_mean :
    calibrate_y_axis 118 [100, 100, 104] ≠ ((medianInt [100, 100, 104] : ℕ) : ℤ)
    ∧ calibrate_y_axis 118 [100, 100, 104] = 101
    ∧ medianInt [100, 100, 104] = 100 := by decide

/-- C1 amended: for every non-empty sample window the standalone
calibration tool sets the Y-center to the integer median of the y values,
while the driver's in-session `calibrate_y_axis` sets it to the integer
(floor) mean `sum // len`; on the spec's example window the median is
100. -/
theorem C1_tool_median_driver_mean (xs ys : List ℕ) (c : ℤ) (hy : ys ≠ []) :
    (calibrate_tool xs ys).center_y = medianInt ys
    ∧ calibrate_y_axis c ys = ((ys.sum / ys.length : ℕ) : ℤ)
    ∧ medianInt [100, 102, 98, 104, 96] = 100 := by
  refine ⟨rfl, ?_, by decide⟩
  unfold calibrate_y_axis
  rw [if_pos hy]

theorem C1_tool_median_driver_mean_witness :
    (calibrate_tool [7] [100, 100, 104]).center_y = medianInt [100, 100, 104]
    ∧ calibrate_y_axis 118 [100, 100, 104]
        = ((([100, 100, 104] : List ℕ).sum / ([100, 100, 104] : List ℕ).length : ℕ) : ℤ) :=
  ⟨(C1_tool_median_driver_mean [7] [100, 100, 104] 118 (by decide)).1,
   (C1_tool_median_driver_mean [7] [100, 100, 104] 118 (by decide)).2.1⟩

/-- C2 fails on the code: `run`'s reconnect path never clears
`last_button_state`.  With the top button held before the connection drop
(stored mask 1), the reconnect leaves the stored mask at 1, and the first
packet decoded after the reconnect — whose mask 0 says the button is not
pressed — emits a PRIMARY release event although the button was never
pressed after the reconnect. -/
theorem C2_reconnect_phantom_release :
    (reconnect (runHandler initState [pressPacket, pressPacket, pressPacket]).1).last_button_state
      = 1
    ∧ ClickEvent.mk Button.PRIMARY false ∈
        ((runOutputs
            (reconnect (runHandler initState [pressPacket, pressPacket, pressPacket]).1)
            [idlePacket, idlePacket, idlePacket]).getD 2 emptyOutput).clicks := by
  decide

/-- C3 fails as stated: from previous mask 1 to current mask 3 the PRIMARY
bit (`0x01`) is unchanged, yet the handler emits a (re-)press write for
PRIMARY, because any mask change re-emits both buttons' current values. -/
theorem C3_counterexample_primary_reemitted :
    (1 &&& 1 : ℕ) = (3 &&& 1 : ℕ)
    ∧ ClickEvent.mk Button.PRIMARY true ∈ buttonEvents 1 3 := by decide

/-- C3 amended: the edge detector emits nothing exactly when the mask is
unchanged, and on any change emits both buttons' current values; on the
mask sequence `[0,1,1,3,3,0]` exactly three transition groups are emitted
(at masks 1, 3 and 0), the group at mask 3 containing a PRIMARY press write
although the PRIMARY bit did not change. -/
theorem C3_fire_both_on_any_change (prev curr : ℕ) :
    (buttonEvents prev curr = [] ↔ curr = prev)
    ∧ (curr ≠ prev →
        buttonEvents prev curr
          = [⟨Button.PRIMARY, decide (curr &&& 1 ≠ 0)⟩,
             ⟨Button.SECONDARY, decide (curr &&& 2 ≠ 0)⟩])
    ∧ buttonRun 0 [0, 1, 1, 3, 3, 0]
        = [[],
           [⟨Button.PRIMARY, true⟩, ⟨Button.SECONDARY, false⟩],
           [],
           [⟨Button.PRIMARY, true⟩, ⟨Button.SECONDARY, true⟩],
           [],
           [⟨Button.PRIMARY, false⟩, ⟨Button.SECONDARY, false⟩]]
    ∧ (buttonRun 0 [0, 1, 1, 3, 3, 0]).countP (fun g => !g.isEmpty) = 3 := by
  refine ⟨?_, ?_, by decide, by decide⟩
  · unfold buttonEvents
    split
    · rename_i hne
      constructor
      · intro hfalse
        cases hfalse
      · intro heq
        exact absurd heq hne
    · rename_i hne
      push_neg at hne
      simp [hne]
  · intro h
    unfold buttonEvents
    rw [if_pos h]

theorem C3_fire_both_on_any_change_witness :
    buttonEvents 1 3
      = [⟨Button.PRIMARY, decide ((3 &&& 1 : ℕ) ≠ 0)⟩,
         ⟨Button.SECONDARY, decide ((3 &&& 2 : ℕ) ≠ 0)⟩] :=
  (C3_fire_both_on_any_change 1 3).2.1 (by decide)

/-- C6: starting from a fresh counter of 0, the k-th delivered packet
(1-indexed) is handed to the decode branch if and only if k is a multiple
of 3 — otherwise its output is empty — and across 9 consecutive well-formed
packets exactly packets 3, 6 and 9 produce output. -/
theorem C6_every_third_packet_processed (ps : List (List ℕ)) (k : ℕ)
    (h1 : 1 ≤ k) (hk : k ≤ ps.length) :
    (runHandler initState (ps.take (k - 1))).1.counter = k - 1
    ∧ ((runOutputs initState ps).getD (k - 1) emptyOutput
        = if k % 3 = 0
          then (decodePacket
                  { (runHandler initState (ps.take (k - 1))).1 with counter := k }
                  (ps.getD (k - 1) [])).2
          else emptyOutput)
    ∧ runOutputs initState (List.replicate 9 goodPacket)
        = [emptyOutput, emptyOutput, ⟨some ⟨0, 32⟩, []⟩,
           emptyOutput, emptyOutput, ⟨some ⟨0, 32⟩, []⟩,
           emptyOutput, emptyOutput, ⟨some ⟨0, 32⟩, []⟩] := by
  have hcnt : (runHandler initState (ps.take (k - 1))).1.counter = k - 1 := by
    rw [runHandler_counter]
    simp only [initState, List.length_take]
    omega
  refine ⟨hcnt, ?_, by decide⟩
  have hklt : k - 1 < ps.length := by omega
  rw [runOutputs_getD initState ps (k - 1) hklt]
  unfold notification_handler
  dsimp only
  have hk1 : (runHandler initState (ps.take (k - 1))).1.counter + 1 = k := by
    rw [hcnt]
    omega
  rw [hk1]
  by_cases h3 : k % 3 = 0 <;> simp [h3]

theorem C6_every_third_packet_processed_witness :
    (runOutputs initState (List.replicate 9 goodPacket)).getD (3 - 1) emptyOutput
      = if 3 % 3 = 0
        then (decodePacket
                { (runHandler initState ((List.replicate 9 goodPacket).take (3 - 1))).1
                    with counter := 3 }
                ((List.replicate 9 goodPacket).getD (3 - 1) [])).2
        else emptyOutput :=
  (C6_every_third_packet_processed (List.replicate 9 goodPacket) 3
    (by decide) (by decide)).2.1

/-- C8: for every non-empty calibration window the tool's recommended
deadzone is `max(drift_x, drift_y) + 5`, where each drift is the
difference between that axis's genuine maximum and minimum sample (both
attained in the window and bounding every sample); on the spec's example
window with constant x the deadzone is 13. -/
theorem C8_deadzone_max_drift_plus_five (xs ys : List ℕ) (hx : xs ≠ [])
    (hy : ys ≠ []) :
    (calibrate_tool xs ys).deadzone
      = max (listMax xs - listMin xs) (listMax ys - listMin ys) + 5
    ∧ listMax xs ∈ xs ∧ listMin xs ∈ xs
    ∧ (∀ b ∈ xs, listMin xs ≤ b ∧ b ≤ listMax xs)
    ∧ listMax ys ∈ ys ∧ listMin ys ∈ ys
    ∧ (∀ b ∈ ys, listMin ys ≤ b ∧ b ≤ listMax ys)
    ∧ (calibrate_tool [7, 7, 7] [100, 102, 98, 104, 96]).deadzone = 13 :=
  ⟨rfl, listMax_mem xs hx, listMin_mem xs hx,
   fun b hb => ⟨listMin_le xs b hb, le_listMax xs b hb⟩,
   listMax_mem ys hy, listMin_mem ys hy,
   fun b hb => ⟨listMin_le ys b hb, le_listMax ys b hb⟩, by decide⟩

theorem C8_deadzone_max_drift_plus_five_witness :
    (calibrate_tool [7, 7, 7] [100, 102, 98, 104, 96]).deadzone = 13 :=
  (C8_deadzone_max_drift_plus_five [7, 7, 7] [100, 102, 98, 104, 96]
    (by decide) (by decide)).2.2.2.2.2.2.2

end Pokeball
